import Mathlib

set_option linter.unusedVariables false

/-!
Shallow embedding of the tag-driven AWS stop/start scheduler found in
`src/scheduler/src`.  Every AWS API call is modelled as an explicit
oracle (a function supplied as a parameter); paginated backends are
modelled as finite scripts of response pages.  Each Rust module is
translated into a namespace of the same name.  Definitions come first,
then the theorems about them.
-/

/-- Rust `str::split(c)` on a character list: splits on every occurrence
of `c`, keeping empty segments.  The result is never empty; an empty
input yields one empty segment, exactly as the Rust iterator does. -/
def splitChar (c : Char) : List Char → List (List Char)
  | [] => [[]]
  | x :: xs =>
    if x = c then [] :: splitChar c xs
    else
      match splitChar c xs with
      | [] => [[x]]
      | seg :: segs => (x :: seg) :: segs

namespace Ec2

/-- From `ec2.rs`: split the ARN on the slash character and take the
last segment, with `unwrap_or(arn)` as the (unreachable) default since a
split is never empty. -/
def extract_instance_id (arn : String) : String :=
  ⟨(splitChar '/' arn.data).getLastD arn.data⟩

end Ec2

namespace Ecs

/-- From `ecs.rs`: split the ARN on the slash character; with at least
three segments return the last two (cluster name, service name);
otherwise fall back to the pair of the empty string and the whole ARN. -/
def extract_ecs_names (arn : String) : String × String :=
  let parts := splitChar '/' arn.data
  if parts.length ≥ 3 then
    (⟨parts.getD (parts.length - 2) []⟩, ⟨parts.getD (parts.length - 1) []⟩)
  else
    ("", arn)

end Ecs

namespace Redshift

/-- From `redshift.rs`: split the ARN on the colon character and take
the last segment, defaulting to the whole ARN. -/
def extract_cluster_id (arn : String) : String :=
  ⟨(splitChar ':' arn.data).getLastD arn.data⟩

end Redshift

namespace FilterResourcesByTags

/-- One response of the Resource Groups Tagging API `GetResources`
call: the resource tag mapping list (each entry carries an optional
ARN, mirroring `mapping.resource_arn()`) and an optional pagination
token. -/
structure Page where
  arns : List (Option String)
  pagination_token : Option String
deriving Repr, DecidableEq

/-- Whether a page carries a continuation token that makes the source
loop issue another request: a present, non-empty token (the guard
`Some(token) if not token.is_empty()` in `filter_resources_by_tags.rs`). -/
def continues (p : Page) : Bool :=
  match p.pagination_token with
  | some token => !(token == "")
  | none => false

/-- A finite response script is well-chained when every page before the
last announces a continuation (so the loop consumes exactly this
script) and the final page does not. -/
def chained : List Page → Bool
  | [] => true
  | [p] => !(continues p)
  | p :: rest => continues p && chained rest

/-- From `filter_resources_by_tags.rs`: the pagination loop of
`get_resources`, with the backend modelled as the finite script of
pages it serves in order.  Each iteration collects the ARNs present in
the current response; a present, non-empty pagination token repeats the
request with that token attached (consuming the next page), anything
else breaks the loop. -/
def get_resources : List Page → List String
  | [] => []
  | page :: rest =>
    let collected := page.arns.filterMap id
    match page.pagination_token with
    | some token => if token = "" then collected else collected ++ get_resources rest
    | none => collected

end FilterResourcesByTags

namespace AutoScaling

/-- Per-instance predicate of `wait_instances_running`: the optional
observed state name (the value of the chained optional accessors on one
`InstanceStatus` entry) equals the string `running`; a missing state
counts as not running (`unwrap_or(false)`). -/
def instanceRunning (state : Option String) : Bool :=
  match state with
  | some name => name == "running"
  | none => false

/-- The `running_count` computed on one `DescribeInstanceStatus`
response: number of entries whose state is `running`. -/
def runningCount (statuses : List (Option String)) : Nat :=
  (statuses.filter instanceRunning).length

/-- Result of one wait cycle. -/
inductive WaitResult where
  | ok
  | timedOut
  | queryError
deriving Repr, DecidableEq

/-- Observable trace of one wait cycle: the list of instance-id batches
sent with each issued state query (in order), the list of performed
sleeps (each entry the slept duration in seconds), and the result. -/
structure WaitOutcome where
  requested : List (List String)
  sleeps : List Nat
  result : WaitResult
deriving Repr, DecidableEq

/-- From `autoscaling.rs::wait_instances_running`: `max_attempts = 40`. -/
def max_attempts : Nat := 40

/-- From `autoscaling.rs::wait_instances_running`: the fixed inter-tick
delay of 15 seconds. -/
def delay_secs : Nat := 15

/-- The attempt loop of `wait_instances_running`, one unfolding per
remaining attempt.  The state-query call is the `query` oracle, indexed
by attempt number; `none` models a failed `DescribeInstanceStatus`
call, which the source propagates immediately with the question-mark
operator.  Every request carries the full `instance_ids` list; success
requires the running count of one response to equal the total; an
unsatisfied tick sleeps `delay_secs` and retries. -/
def waitGo (query : Nat → Option (List (Option String)))
    (instance_ids : List String) : Nat → Nat → WaitOutcome
  | _, 0 => ⟨[], [], .timedOut⟩
  | attempt, rem + 1 =>
    match query attempt with
    | none => ⟨[instance_ids], [], .queryError⟩
    | some statuses =>
      if runningCount statuses = instance_ids.length then
        ⟨[instance_ids], [], .ok⟩
      else
        let o := waitGo query instance_ids (attempt + 1) rem
        ⟨instance_ids :: o.requested, delay_secs :: o.sleeps, o.result⟩

/-- From `autoscaling.rs::wait_instances_running`: run the attempt loop
from attempt 1 with `max_attempts` remaining. -/
def wait_instances_running (query : Nat → Option (List (Option String)))
    (instance_ids : List String) : WaitOutcome :=
  waitGo query instance_ids 1 max_attempts

/-- A state oracle under which the first target is running on tick 1
and the second target on every later tick, but never both on the same
tick. -/
def alternatingQuery (attempt : Nat) : Option (List (Option String)) :=
  if attempt = 1 then some [some "running", some "stopped"]
  else some [some "stopped", some "running"]

/-- One attempted AWS call of the Auto Scaling facade, in the order the
source issues them; the wait phase appears as a single event carrying
the awaited instance ids. -/
inductive AsgEvent where
  | suspend (group : String)
  | stopInstance (instance_id : String)
  | startInstance (instance_id : String)
  | waitRunning (instance_ids : List String)
  | resume (group : String)
deriving Repr, DecidableEq

def isSuspend : AsgEvent → Bool
  | .suspend _ => true
  | _ => false

def isStopInstance : AsgEvent → Bool
  | .stopInstance _ => true
  | _ => false

def isStartInstance : AsgEvent → Bool
  | .startInstance _ => true
  | _ => false

def isWaitRunning : AsgEvent → Bool
  | .waitRunning _ => true
  | _ => false

def isResume : AsgEvent → Bool
  | .resume _ => true
  | _ => false

/-- From `autoscaling.rs::stop`: given the discovered group names and
member instance ids, suspend the processes of every group, then stop
every instance.  Failures of individual calls are logged and do not
alter the sequence of attempted calls, so the trace does not depend on
them. -/
def stop (group_names instance_ids : List String) : List AsgEvent :=
  group_names.map .suspend ++ instance_ids.map .stopInstance

/-- From `autoscaling.rs::start`: start every instance; the ids whose
start call succeeded (per the `start_ok` oracle) form the `started`
list; when it is non-empty one wait-for-running phase runs on it (its
own failure is logged); finally the processes of every group are
resumed. -/
def start (group_names instance_ids : List String)
    (start_ok : String → Bool) : List AsgEvent :=
  let started := instance_ids.filter start_ok
  instance_ids.map .startInstance
    ++ (if started.isEmpty then [] else [.waitRunning started])
    ++ group_names.map .resume

end AutoScaling

namespace Ec2

/-- From `ec2.rs`: the action requested on an individual instance. -/
inductive Action where
  | stop
  | start
deriving Repr, DecidableEq

/-- A state-changing EC2 call (`stop_instances` or `start_instances`)
on one instance. -/
inductive Ec2Call where
  | stopCall (instance_id : String)
  | startCall (instance_id : String)
deriving Repr, DecidableEq

/-- From `ec2.rs::process_instance`: query the Auto Scaling membership
of the instance (the `asg_lookup` oracle returns the
`auto_scaling_instances` record list, or an error that the source
propagates); a non-empty membership list means the instance is skipped
with success and no state-changing call; otherwise exactly one
stop/start call is issued and its result returned.  The second
component is the list of state-changing calls issued. -/
def process_instance (asg_lookup : String → Except String (List String))
    (call_result : Ec2Call → Except String Unit)
    (instance_id : String) (action : Action) :
    Except String Unit × List Ec2Call :=
  match asg_lookup instance_id with
  | .error e => (.error e, [])
  | .ok members =>
    if !members.isEmpty then (.ok (), [])
    else
      match action with
      | .stop => (call_result (.stopCall instance_id), [.stopCall instance_id])
      | .start => (call_result (.startCall instance_id), [.startCall instance_id])

/-- From `ec2.rs::stop`: process every discovered ARN in order; a
failing `process_instance` is logged and processing continues; the
operation itself returns success.  The first component records every
attempted per-instance processing with its result. -/
def stop (asg_lookup : String → Except String (List String))
    (call_result : Ec2Call → Except String Unit)
    (arns : List String) : List (String × Except String Unit) × Bool :=
  (arns.map (fun arn =>
    let instance_id := extract_instance_id arn
    (instance_id, (process_instance asg_lookup call_result instance_id .stop).1)),
   true)

/-- From `ec2.rs::start`: as `stop`, with the start action. -/
def start (asg_lookup : String → Except String (List String))
    (call_result : Ec2Call → Except String Unit)
    (arns : List String) : List (String × Except String Unit) × Bool :=
  (arns.map (fun arn =>
    let instance_id := extract_instance_id arn
    (instance_id, (process_instance asg_lookup call_result instance_id .start).1)),
   true)

end Ec2

namespace Redshift

/-- From `redshift.rs::stop`: pause every discovered cluster; a failing
`pause_cluster` call (the `pause_result` oracle) is logged and
processing continues; the operation returns success. -/
def stop (pause_result : String → Except String Unit)
    (arns : List String) : List (String × Except String Unit) × Bool :=
  (arns.map (fun arn =>
    let cluster_id := extract_cluster_id arn
    (cluster_id, pause_result cluster_id)),
   true)

/-- From `redshift.rs::start`: resume every discovered cluster, same
shape as `stop`. -/
def start (resume_result : String → Except String Unit)
    (arns : List String) : List (String × Except String Unit) × Bool :=
  (arns.map (fun arn =>
    let cluster_id := extract_cluster_id arn
    (cluster_id, resume_result cluster_id)),
   true)

end Redshift

/-- A state-changing database call issued by the DocumentDB or RDS
facade during a stop run, tagged by the issuing scheduler. -/
inductive DbEvent where
  | docdbStopCluster (cluster_id : String)
  | rdsStopCluster (cluster_id : String)
  | rdsStopInstance (db_id : String)
deriving Repr, DecidableEq

/-- Does the event act on the given cluster identifier (by either
scheduler)? -/
def targetsCluster (cluster_id : String) : DbEvent → Bool
  | .docdbStopCluster c => c == cluster_id
  | .rdsStopCluster c => c == cluster_id
  | .rdsStopInstance _ => false

namespace DocumentDb

/-- From `documentdb.rs::stop`: the resource-type string passed to
`get_resources`. -/
def resource_type : String := "rds:cluster"

/-- From `documentdb.rs`: split the ARN on the colon character and take
the last segment, defaulting to the whole ARN. -/
def extract_cluster_id (arn : String) : String :=
  ⟨(splitChar ':' arn.data).getLastD arn.data⟩

/-- From `documentdb.rs::stop`: discover the tagged clusters (the
`tagging` oracle maps a resource-type string to the ARNs the tagging
API returns for the configured tag) and issue one `stop_db_cluster`
call per discovered ARN. -/
def stop (tagging : String → List String) : List DbEvent :=
  (tagging resource_type).map (fun arn => .docdbStopCluster (extract_cluster_id arn))

end DocumentDb

namespace Rds

/-- From `rds.rs::stop`: the resource-type strings passed to
`get_resources`. -/
def cluster_resource_type : String := "rds:cluster"

def db_resource_type : String := "rds:db"

/-- From `rds.rs`: split the ARN on the colon character and take the
last segment, defaulting to the whole ARN. -/
def extract_rds_id (arn : String) : String :=
  ⟨(splitChar ':' arn.data).getLastD arn.data⟩

/-- From `rds.rs::stop`: stop every tagged cluster, then every tagged
instance. -/
def stop (tagging : String → List String) : List DbEvent :=
  (tagging cluster_resource_type).map (fun arn => .rdsStopCluster (extract_rds_id arn))
    ++ (tagging db_resource_type).map (fun arn => .rdsStopInstance (extract_rds_id arn))

end Rds

namespace Main

/-- From `config.rs`: the requested action. -/
inductive ScheduleAction where
  | stop
  | start
deriving Repr, DecidableEq

/-- The resource families dispatched by `main.rs::execute`, in source
order. -/
inductive Family where
  | ec2
  | autoscaling
  | apprunner
  | cloudwatch
  | documentdb
  | ecs
  | rds
  | redshift
  | transfer
deriving Repr, DecidableEq

/-- From `config.rs::AppConfig`. -/
structure AppConfig where
  schedule_action : ScheduleAction
  aws_regions : List String
  tag_key : String
  tag_value : String
  ec2_schedule : Bool
  apprunner_schedule : Bool
  autoscaling_schedule : Bool
  cloudwatch_alarm_schedule : Bool
  documentdb_schedule : Bool
  ecs_schedule : Bool
  rds_schedule : Bool
  redshift_schedule : Bool
  transfer_schedule : Bool
  excluded_dates : List String

/-- From `main.rs::is_date_excluded`: compare every configured
exclusion entry with the current UTC date already formatted as MM-DD
(that formatted date is the `today` parameter, the one I-O input of the
function). -/
def is_date_excluded (excluded_dates : List String) (today : String) : Bool :=
  excluded_dates.any (fun d => d == today)

/-- One facade invocation performed by the orchestrator.  Every cloud
API call of a run happens inside some facade invocation, so a run with
no invocations performs no cloud API calls. -/
structure Invocation where
  region : String
  family : Family
  action : ScheduleAction
deriving Repr, DecidableEq

/-- From `main.rs::execute`: the body of the region loop — each enabled
family, in the fixed source order, receives exactly one facade
invocation carrying the configured action; a failed invocation is
logged and does not stop the remaining ones, so the invocation list
does not depend on failures. -/
def region_invocations (config : AppConfig) (region : String) : List Invocation :=
  (if config.ec2_schedule then [⟨region, .ec2, config.schedule_action⟩] else [])
    ++ (if config.autoscaling_schedule then [⟨region, .autoscaling, config.schedule_action⟩] else [])
    ++ (if config.apprunner_schedule then [⟨region, .apprunner, config.schedule_action⟩] else [])
    ++ (if config.cloudwatch_alarm_schedule then [⟨region, .cloudwatch, config.schedule_action⟩] else [])
    ++ (if config.documentdb_schedule then [⟨region, .documentdb, config.schedule_action⟩] else [])
    ++ (if config.ecs_schedule then [⟨region, .ecs, config.schedule_action⟩] else [])
    ++ (if config.rds_schedule then [⟨region, .rds, config.schedule_action⟩] else [])
    ++ (if config.redshift_schedule then [⟨region, .redshift, config.schedule_action⟩] else [])
    ++ (if config.transfer_schedule then [⟨region, .transfer, config.schedule_action⟩] else [])

/-- From `main.rs::execute`: evaluate the date-exclusion gate first; on
a match the run performs no invocation and returns success; otherwise
run the region loop.  The result pairs the ordered invocation list with
the final result (always success, errors being logged). -/
def execute (config : AppConfig) (today : String) : List Invocation × Bool :=
  if is_date_excluded config.excluded_dates today then ([], true)
  else (config.aws_regions.flatMap (region_invocations config), true)

end Main

/-- A configuration with July 4th excluded, used to instantiate the
date-exclusion theorem. -/
def july4Config : Main.AppConfig :=
  ⟨.stop, ["us-east-1"], "scheduled", "true",
   true, false, false, false, false, false, false, false, false,
   ["07-04"]⟩

theorem splitChar_ne_nil (c : Char) (l : List Char) : splitChar c l ≠ [] := by
  induction l with
  | nil => simp [splitChar]
  | cons x xs ih =>
    simp only [splitChar]
    by_cases h : x = c
    · simp [h]
    · simp only [h, if_false]
      cases hs : splitChar c xs with
      | nil => simp
      | cons seg segs => simp

/-- Splitting on a character that does not occur returns the whole list
as a single segment. -/
theorem splitChar_not_mem {c : Char} {l : List Char} (h : c ∉ l) :
    splitChar c l = [l] := by
  induction l with
  | nil => rfl
  | cons x xs ih =>
    simp only [List.mem_cons, not_or] at h
    simp only [splitChar]
    rw [if_neg (fun hx => h.1 hx.symm), ih h.2]

theorem extract_single_of_no_slash {s : String} (h : '/' ∉ s.data) :
    Ec2.extract_instance_id s = s ∧ Ecs.extract_ecs_names s = ("", s) := by
  constructor
  · simp [Ec2.extract_instance_id, splitChar_not_mem h]
  · simp [Ecs.extract_ecs_names, splitChar_not_mem h]

/-- C8: ARN segment extraction is a total pure string transform.  On the
well-formed ECS service ARN it yields the (cluster, service) pair; on
any input with no separator at all, every extraction falls back to the
whole input string unchanged (for the pair-valued ECS extraction, the
identifier slot carries the unchanged input and the cluster slot is
empty, per the source fallback to the empty string paired with the
ARN). -/
theorem c8_arn_extraction_total :
    Ecs.extract_ecs_names "arn:aws:ecs:us-east-1:123:service/my-cluster/my-service"
      = ("my-cluster", "my-service")
    ∧ Ec2.extract_instance_id "not-an-arn" = "not-an-arn"
    ∧ Ecs.extract_ecs_names "not-an-arn" = ("", "not-an-arn")
    ∧ Redshift.extract_cluster_id "not-an-arn" = "not-an-arn"
    ∧ (∀ s : String, '/' ∉ s.data →
        Ec2.extract_instance_id s = s ∧ Ecs.extract_ecs_names s = ("", s))
    ∧ (∀ s : String, ':' ∉ s.data → Redshift.extract_cluster_id s = s) := by
  refine ⟨by decide, by decide, by decide, by decide, ?_, ?_⟩
  · exact fun s h => extract_single_of_no_slash h
  · intro s h
    simp [Redshift.extract_cluster_id, splitChar_not_mem h]

/-- C8 witness: the universally quantified fallback clauses applied at
the concrete malformed input `"x-y"`. -/
theorem c8_arn_extraction_total_witness :
    Ec2.extract_instance_id "x-y" = "x-y" ∧ Redshift.extract_cluster_id "x-y" = "x-y" :=
  ⟨(c8_arn_extraction_total.2.2.2.2.1 "x-y" (by decide)).1,
   c8_arn_extraction_total.2.2.2.2.2 "x-y" (by decide)⟩

namespace FilterResourcesByTags

theorem chained_cons {p : Page} {q : Page} {rest : List Page} :
    chained (p :: q :: rest) = (continues p && chained (q :: rest)) := rfl

/-- A page announcing a continuation makes the loop collect its ARNs
and keep consuming the rest of the script. -/
theorem get_resources_cons_continue {p : Page} {rest : List Page}
    (h : continues p = true) :
    get_resources (p :: rest) = p.arns.filterMap id ++ get_resources rest := by
  unfold continues at h
  cases hp : p.pagination_token with
  | none => rw [hp] at h; simp at h
  | some token =>
    rw [hp] at h
    have h2 : ¬ token = "" := by simpa using h
    simp only [get_resources, hp, if_neg h2]

/-- A page announcing no continuation makes the loop collect its ARNs
and break. -/
theorem get_resources_cons_break {p : Page} {rest : List Page}
    (h : continues p = false) :
    get_resources (p :: rest) = p.arns.filterMap id := by
  unfold continues at h
  cases hp : p.pagination_token with
  | none => simp only [get_resources, hp]
  | some token =>
    rw [hp] at h
    have h2 : token = "" := by simpa using h
    simp only [get_resources, hp, if_pos h2]

/-- On a well-chained script the loop consumes every page and collects
exactly the present ARNs of all pages, in order. -/
theorem get_resources_chained :
    ∀ {pages : List Page}, chained pages = true →
      get_resources pages = (pages.flatMap Page.arns).filterMap id := by
  intro pages
  induction pages with
  | nil => intro _; rfl
  | cons p rest ih =>
    intro h
    cases rest with
    | nil =>
      simp only [chained, Bool.not_eq_true'] at h
      rw [get_resources_cons_break h]
      simp
    | cons q rest2 =>
      rw [chained_cons, Bool.and_eq_true] at h
      obtain ⟨hc, hrest⟩ := h
      rw [get_resources_cons_continue hc, ih hrest]
      simp [List.filterMap_append]

end FilterResourcesByTags

/-- C2: the tag-based resource locator accumulates the union of the
ARNs of all served pages (repeating the request while a continuation
token is returned); a present-but-empty pagination token terminates
pagination exactly as an absent token does; and the accumulated result
depends only on the multiset of listed ARNs, not on how a fixed result
set is partitioned into pages. -/
theorem c2_pagination_union :
    (∀ pages : List FilterResourcesByTags.Page,
        FilterResourcesByTags.chained pages = true →
          FilterResourcesByTags.get_resources pages
            = (pages.flatMap FilterResourcesByTags.Page.arns).filterMap id)
    ∧ (∀ (arns : List (Option String)) (rest : List FilterResourcesByTags.Page),
        FilterResourcesByTags.get_resources (⟨arns, some ""⟩ :: rest)
          = FilterResourcesByTags.get_resources (⟨arns, none⟩ :: rest))
    ∧ (∀ pages pages' : List FilterResourcesByTags.Page,
        FilterResourcesByTags.chained pages = true →
        FilterResourcesByTags.chained pages' = true →
        pages.flatMap FilterResourcesByTags.Page.arns
          = pages'.flatMap FilterResourcesByTags.Page.arns →
          FilterResourcesByTags.get_resources pages
            = FilterResourcesByTags.get_resources pages') := by
  refine ⟨fun pages h => FilterResourcesByTags.get_resources_chained h, ?_, ?_⟩
  · intro arns rest
    simp [FilterResourcesByTags.get_resources]
  · intro pages pages' h h' heq
    rw [FilterResourcesByTags.get_resources_chained h,
      FilterResourcesByTags.get_resources_chained h', heq]

/-- C2 witness: a two-page script and a one-page script (the latter
ending in a present-but-empty token) over the same result set yield the
same accumulated ARNs. -/
theorem c2_pagination_union_witness :
    FilterResourcesByTags.get_resources
        [⟨[some "arn:a"], some "tok"⟩, ⟨[some "arn:b", none], none⟩]
      = ["arn:a", "arn:b"]
    ∧ FilterResourcesByTags.get_resources [⟨[some "arn:a", some "arn:b", none], some ""⟩]
      = ["arn:a", "arn:b"] := by
  constructor
  · rw [c2_pagination_union.1 _ (by decide)]
    decide
  · rw [c2_pagination_union.2.1]
    rw [c2_pagination_union.1 _ (by decide)]
    decide

namespace AutoScaling

theorem waitGo_zero (query : Nat → Option (List (Option String)))
    (instance_ids : List String) (attempt : Nat) :
    waitGo query instance_ids attempt 0 = ⟨[], [], .timedOut⟩ := rfl

theorem waitGo_fail_now {query : Nat → Option (List (Option String))}
    {instance_ids : List String} {attempt rem : Nat}
    (h : query attempt = none) :
    waitGo query instance_ids attempt (rem + 1) = ⟨[instance_ids], [], .queryError⟩ := by
  simp only [waitGo, h]

theorem waitGo_success_now {query : Nat → Option (List (Option String))}
    {instance_ids : List String} {attempt rem : Nat} {statuses : List (Option String)}
    (h : query attempt = some statuses)
    (hr : runningCount statuses = instance_ids.length) :
    waitGo query instance_ids attempt (rem + 1) = ⟨[instance_ids], [], .ok⟩ := by
  simp only [waitGo, h, if_pos hr]

theorem waitGo_step {query : Nat → Option (List (Option String))}
    {instance_ids : List String} {attempt rem : Nat} {statuses : List (Option String)}
    (h : query attempt = some statuses)
    (hr : runningCount statuses ≠ instance_ids.length) :
    waitGo query instance_ids attempt (rem + 1)
      = ⟨instance_ids :: (waitGo query instance_ids (attempt + 1) rem).requested,
         delay_secs :: (waitGo query instance_ids (attempt + 1) rem).sleeps,
         (waitGo query instance_ids (attempt + 1) rem).result⟩ := by
  simp only [waitGo, h, if_neg hr]

/-- Decomposition of the attempt loop over a prefix of ticks that all
succeed without satisfying the predicate. -/
theorem waitGo_unroll {query : Nat → Option (List (Option String))}
    {instance_ids : List String} :
    ∀ {k attempt rem : Nat}, k ≤ rem →
    (∀ i, attempt ≤ i → i < attempt + k →
      ∃ sts, query i = some sts ∧ runningCount sts ≠ instance_ids.length) →
    waitGo query instance_ids attempt rem
      = ⟨List.replicate k instance_ids
           ++ (waitGo query instance_ids (attempt + k) (rem - k)).requested,
         List.replicate k delay_secs
           ++ (waitGo query instance_ids (attempt + k) (rem - k)).sleeps,
         (waitGo query instance_ids (attempt + k) (rem - k)).result⟩ := by
  intro k
  induction k with
  | zero => intro attempt rem _ _; simp
  | succ k ih =>
    intro attempt rem hk h
    obtain ⟨rem', rfl⟩ : ∃ r, rem = r + 1 := ⟨rem - 1, by omega⟩
    obtain ⟨sts, hq, hne⟩ := h attempt (le_refl _) (by omega)
    rw [waitGo_step hq hne]
    have hk' : k ≤ rem' := by omega
    have h' : ∀ i, attempt + 1 ≤ i → i < attempt + 1 + k →
        ∃ sts, query i = some sts ∧ runningCount sts ≠ instance_ids.length := by
      intro i h1 h2
      exact h i (by omega) (by omega)
    rw [ih hk' h']
    have e1 : attempt + 1 + k = attempt + (k + 1) := by omega
    have e2 : rem' - k = rem' + 1 - (k + 1) := by omega
    rw [e1, e2]
    simp [List.replicate_succ]

/-- When no tick in the window satisfies the predicate, the loop runs
out of attempts: every attempt queries once, sleeps once, and the cycle
times out. -/
theorem waitGo_never {query : Nat → Option (List (Option String))}
    {instance_ids : List String} {attempt rem : Nat}
    (h : ∀ i, attempt ≤ i → i < attempt + rem →
      ∃ sts, query i = some sts ∧ runningCount sts ≠ instance_ids.length) :
    waitGo query instance_ids attempt rem
      = ⟨List.replicate rem instance_ids, List.replicate rem delay_secs, .timedOut⟩ := by
  rw [waitGo_unroll (le_refl rem) h]
  simp [waitGo_zero]

/-- The loop never issues more state queries than it has remaining
attempts. -/
theorem waitGo_requested_le {query : Nat → Option (List (Option String))}
    {instance_ids : List String} :
    ∀ (rem attempt : Nat),
      (waitGo query instance_ids attempt rem).requested.length ≤ rem := by
  intro rem
  induction rem with
  | zero => intro attempt; simp [waitGo_zero]
  | succ rem ih =>
    intro attempt
    cases hq : query attempt with
    | none => rw [waitGo_fail_now hq]; simp
    | some sts =>
      by_cases hr : runningCount sts = instance_ids.length
      · rw [waitGo_success_now hq hr]; simp
      · rw [waitGo_step hq hr]
        have := ih (attempt + 1)
        simp only [List.length_cons]
        omega

/-- Every issued state query carries the full original target list. -/
theorem waitGo_requested_mem {query : Nat → Option (List (Option String))}
    {instance_ids : List String} :
    ∀ (rem attempt : Nat) (r : List String),
      r ∈ (waitGo query instance_ids attempt rem).requested → r = instance_ids := by
  intro rem
  induction rem with
  | zero => intro attempt r hr; simp [waitGo_zero] at hr
  | succ rem ih =>
    intro attempt r hr
    cases hq : query attempt with
    | none => rw [waitGo_fail_now hq] at hr; simpa using hr
    | some sts =>
      by_cases hc : runningCount sts = instance_ids.length
      · rw [waitGo_success_now hq hc] at hr; simpa using hr
      · rw [waitGo_step hq hc] at hr
        simp only [List.mem_cons] at hr
        rcases hr with rfl | hr
        · rfl
        · exact ih (attempt + 1) r hr

/-- Success of the loop requires one single tick whose response shows
every target running simultaneously. -/
theorem waitGo_ok_simultaneous {query : Nat → Option (List (Option String))}
    {instance_ids : List String} :
    ∀ (rem attempt : Nat),
      (waitGo query instance_ids attempt rem).result = .ok →
      ∃ k, attempt ≤ k ∧ k < attempt + rem ∧
        ∃ sts, query k = some sts ∧ runningCount sts = instance_ids.length := by
  intro rem
  induction rem with
  | zero => intro attempt h; simp [waitGo_zero] at h
  | succ rem ih =>
    intro attempt h
    cases hq : query attempt with
    | none => rw [waitGo_fail_now hq] at h; simp at h
    | some sts =>
      by_cases hc : runningCount sts = instance_ids.length
      · exact ⟨attempt, le_refl _, by omega, sts, hq, hc⟩
      · rw [waitGo_step hq hc] at h
        simp only at h
        obtain ⟨k, h1, h2, hw⟩ := ih (attempt + 1) h
        exact ⟨k, by omega, by omega, hw⟩

end AutoScaling

/-- C3: the poll-until-state waiter is bounded.  If no tick up to
`max_attempts` shows every target running, the cycle issues exactly
`max_attempts` state queries with a `delay_secs` sleep after each
unsatisfied tick and returns the timeout error; it never issues more
than `max_attempts` queries; and it returns success on the first tick
at which every target satisfies the predicate, issuing exactly that
many queries. -/
theorem c3_waiter_bounded (query : Nat → Option (List (Option String)))
    (instance_ids : List String) :
    (instance_ids ≠ [] →
      (∀ i, 1 ≤ i → i ≤ AutoScaling.max_attempts →
        ∃ sts, query i = some sts
          ∧ AutoScaling.runningCount sts ≠ instance_ids.length) →
      AutoScaling.wait_instances_running query instance_ids
        = ⟨List.replicate AutoScaling.max_attempts instance_ids,
           List.replicate AutoScaling.max_attempts AutoScaling.delay_secs,
           .timedOut⟩)
    ∧ (AutoScaling.wait_instances_running query instance_ids).requested.length
        ≤ AutoScaling.max_attempts
    ∧ (∀ k, 1 ≤ k → k ≤ AutoScaling.max_attempts →
        (∀ i, 1 ≤ i → i < k →
          ∃ sts, query i = some sts
            ∧ AutoScaling.runningCount sts ≠ instance_ids.length) →
        (∃ sts, query k = some sts
          ∧ AutoScaling.runningCount sts = instance_ids.length) →
        (AutoScaling.wait_instances_running query instance_ids).result = .ok
          ∧ (AutoScaling.wait_instances_running query instance_ids).requested.length
              = k) := by
  refine ⟨?_, ?_, ?_⟩
  · intro _ h
    unfold AutoScaling.wait_instances_running
    apply AutoScaling.waitGo_never
    intro i h1 h2
    exact h i h1 (by omega)
  · exact AutoScaling.waitGo_requested_le _ _
  · intro k hk1 hk2 hpre hsucc
    obtain ⟨r, rfl⟩ : ∃ r, k = r + 1 := ⟨k - 1, by omega⟩
    obtain ⟨sts, hq, hr⟩ := hsucc
    have hpre' : ∀ i, 1 ≤ i → i < 1 + r →
        ∃ s, query i = some s ∧ AutoScaling.runningCount s ≠ instance_ids.length := by
      intro i h1 h2
      exact hpre i h1 (by omega)
    have hrle : r ≤ AutoScaling.max_attempts := by omega
    unfold AutoScaling.wait_instances_running
    rw [AutoScaling.waitGo_unroll hrle hpre']
    obtain ⟨m, hm⟩ : ∃ m, AutoScaling.max_attempts - r = m + 1 :=
      ⟨AutoScaling.max_attempts - r - 1, by omega⟩
    rw [hm]
    have hq' : query (1 + r) = some sts := by rw [Nat.add_comm]; exact hq
    rw [AutoScaling.waitGo_success_now hq' hr]
    constructor
    · rfl
    · simp

/-- C3 witness: a one-target cycle whose predicate is never satisfied
runs for exactly 40 queries and 40 fifteen-second sleeps, then times
out. -/
theorem c3_waiter_bounded_witness :
    AutoScaling.wait_instances_running
        (fun _ => some [some "stopped"]) ["i-1"]
      = ⟨List.replicate 40 ["i-1"], List.replicate 40 15, .timedOut⟩ :=
  (c3_waiter_bounded (fun _ => some [some "stopped"]) ["i-1"]).1
    (by decide) (fun i h1 h2 => ⟨[some "stopped"], rfl, by decide⟩)

/-- C5: a failing state-query call aborts the wait immediately: if the
first `j - 1` ticks succeed without satisfying the predicate and the
call of tick `j` fails, the cycle has issued exactly `j` queries (none
after the failure), slept only between the earlier ticks (no sleep
after the failure, so the failed call is not treated as an attempt to
retry), and returns the query error. -/
theorem c5_query_failure_aborts (query : Nat → Option (List (Option String)))
    (instance_ids : List String) (j : Nat)
    (h1 : 1 ≤ j) (h2 : j ≤ AutoScaling.max_attempts)
    (hpre : ∀ i, 1 ≤ i → i < j →
      ∃ sts, query i = some sts
        ∧ AutoScaling.runningCount sts ≠ instance_ids.length)
    (hfail : query j = none) :
    AutoScaling.wait_instances_running query instance_ids
      = ⟨List.replicate j instance_ids,
         List.replicate (j - 1) AutoScaling.delay_secs,
         .queryError⟩ := by
  obtain ⟨r, rfl⟩ : ∃ r, j = r + 1 := ⟨j - 1, by omega⟩
  have hpre' : ∀ i, 1 ≤ i → i < 1 + r →
      ∃ s, query i = some s ∧ AutoScaling.runningCount s ≠ instance_ids.length := by
    intro i ha hb
    exact hpre i ha (by omega)
  have hrle : r ≤ AutoScaling.max_attempts := by omega
  unfold AutoScaling.wait_instances_running
  rw [AutoScaling.waitGo_unroll hrle hpre']
  obtain ⟨m, hm⟩ : ∃ m, AutoScaling.max_attempts - r = m + 1 :=
    ⟨AutoScaling.max_attempts - r - 1, by omega⟩
  rw [hm]
  have hfail' : query (1 + r) = none := by rw [Nat.add_comm]; exact hfail
  rw [AutoScaling.waitGo_fail_now hfail']
  simp [List.replicate_succ']

/-- C5 witness: a query that fails on the very first tick produces one
query, no sleep, and the immediate query error. -/
theorem c5_query_failure_aborts_witness :
    AutoScaling.wait_instances_running (fun _ => none) ["i-1"]
      = ⟨[["i-1"]], [], .queryError⟩ :=
  c5_query_failure_aborts (fun _ => none) ["i-1"] 1 (by decide) (by decide)
    (by intro i ha hb; omega) rfl

/-- C4 (amended): within one wait cycle the waiter keeps no shrinking
pending set.  Every issued state query carries the full original target
list (a target whose state already satisfied the predicate on an
earlier tick is queried again), and the cycle returns success only when
some single tick observes every target running simultaneously. -/
theorem c4_waiter_queries_full_set (query : Nat → Option (List (Option String)))
    (instance_ids : List String) :
    (∀ r ∈ (AutoScaling.wait_instances_running query instance_ids).requested,
        r = instance_ids)
    ∧ ((AutoScaling.wait_instances_running query instance_ids).result = .ok →
        ∃ k, 1 ≤ k ∧ k < 1 + AutoScaling.max_attempts ∧
          ∃ sts, query k = some sts
            ∧ AutoScaling.runningCount sts = instance_ids.length) := by
  constructor
  · intro r hr
    exact AutoScaling.waitGo_requested_mem _ _ r hr
  · intro h
    exact AutoScaling.waitGo_ok_simultaneous _ _ h

/-- C4 counterexample: two targets, the first running on tick 1 only
and the second on every later tick.  Tick 1 satisfies the predicate for
the first target, yet the second query still requests both targets (the
pending set did not shrink), and the cycle times out even though each
target satisfied the predicate at some tick — under the claimed
shrinking-pending-set semantics the cycle would have succeeded on tick
2. -/
theorem c4_counterexample :
    AutoScaling.alternatingQuery 1 = some [some "running", some "stopped"]
    ∧ AutoScaling.instanceRunning (some "running") = true
    ∧ (AutoScaling.wait_instances_running AutoScaling.alternatingQuery
        ["i-a", "i-b"]).requested.getD 1 [] = ["i-a", "i-b"]
    ∧ (AutoScaling.wait_instances_running AutoScaling.alternatingQuery
        ["i-a", "i-b"]).result = .timedOut := by
  refine ⟨by decide, by decide, by decide, by decide⟩

/-- C4 witness: the amended theorem applied to a single target that is
running from the first tick on. -/
theorem c4_waiter_queries_full_set_witness :
    (["i-1"] : List String) = ["i-1"]
    ∧ ∃ k, 1 ≤ k ∧ k < 1 + AutoScaling.max_attempts ∧
        ∃ sts, (fun _ : Nat => (some [some "running"] : Option (List (Option String)))) k
            = some sts
          ∧ AutoScaling.runningCount sts = (["i-1"] : List String).length :=
  ⟨(c4_waiter_queries_full_set
      (fun _ => (some [some "running"] : Option (List (Option String)))) ["i-1"]).1
      ["i-1"] (by decide),
   (c4_waiter_queries_full_set
      (fun _ => (some [some "running"] : Option (List (Option String)))) ["i-1"]).2
      (by decide)⟩

/-- In a concatenation whose right part has no element satisfying `p`
and whose left part has no element satisfying `q`, every index carrying
a `p`-element comes before every index carrying a `q`-element. -/
theorem before_split {α : Type} (p q : α → Bool) (l l₁ l₂ : List α)
    (hl : l = l₁ ++ l₂)
    (hp2 : ∀ e ∈ l₂, p e = false) (hq1 : ∀ e ∈ l₁, q e = false)
    {i j : Nat} (hi : i < l.length) (hj : j < l.length)
    (hpi : p (l.get ⟨i, hi⟩) = true) (hqj : q (l.get ⟨j, hj⟩) = true) :
    i < j := by
  subst hl
  have hil : i < l₁.length := by
    by_contra hge
    push_neg at hge
    have hmem : (l₁ ++ l₂).get ⟨i, hi⟩ ∈ l₂ := by
      rw [List.get_eq_getElem, List.getElem_append_right hge]
      exact List.getElem_mem _
    rw [hp2 _ hmem] at hpi
    exact Bool.false_ne_true hpi
  have hjl : l₁.length ≤ j := by
    by_contra hlt
    push_neg at hlt
    have hmem : (l₁ ++ l₂).get ⟨j, hj⟩ ∈ l₁ := by
      rw [List.get_eq_getElem, List.getElem_append_left hlt]
      exact List.getElem_mem _
    rw [hq1 _ hmem] at hqj
    exact Bool.false_ne_true hqj
  omega

theorem eq_wait_of_mem_ifwait {e : AutoScaling.AsgEvent} {b : Bool} {s : List String}
    (h : e ∈ (if b then ([] : List AutoScaling.AsgEvent)
              else [AutoScaling.AsgEvent.waitRunning s])) :
    e = .waitRunning s := by
  cases b with
  | false => simpa using h
  | true => simp at h

/-- C6: ordering inside the Auto Scaling facade.  In the stop trace
every suspend-processes call precedes every stop-instance call; in the
start trace every start-instance call precedes the wait-for-running
phase and every resume-processes call, and the wait phase precedes
every resume-processes call. -/
theorem c6_asg_ordering (group_names instance_ids : List String)
    (start_ok : String → Bool) :
    (∀ (i j : Nat) (hi : i < (AutoScaling.stop group_names instance_ids).length)
        (hj : j < (AutoScaling.stop group_names instance_ids).length),
        AutoScaling.isSuspend
          ((AutoScaling.stop group_names instance_ids).get ⟨i, hi⟩) = true →
        AutoScaling.isStopInstance
          ((AutoScaling.stop group_names instance_ids).get ⟨j, hj⟩) = true →
        i < j)
    ∧ (∀ (i j : Nat)
        (hi : i < (AutoScaling.start group_names instance_ids start_ok).length)
        (hj : j < (AutoScaling.start group_names instance_ids start_ok).length),
        AutoScaling.isStartInstance
          ((AutoScaling.start group_names instance_ids start_ok).get ⟨i, hi⟩) = true →
        AutoScaling.isWaitRunning
          ((AutoScaling.start group_names instance_ids start_ok).get ⟨j, hj⟩) = true →
        i < j)
    ∧ (∀ (i j : Nat)
        (hi : i < (AutoScaling.start group_names instance_ids start_ok).length)
        (hj : j < (AutoScaling.start group_names instance_ids start_ok).length),
        AutoScaling.isStartInstance
          ((AutoScaling.start group_names instance_ids start_ok).get ⟨i, hi⟩) = true →
        AutoScaling.isResume
          ((AutoScaling.start group_names instance_ids start_ok).get ⟨j, hj⟩) = true →
        i < j)
    ∧ (∀ (i j : Nat)
        (hi : i < (AutoScaling.start group_names instance_ids start_ok).length)
        (hj : j < (AutoScaling.start group_names instance_ids start_ok).length),
        AutoScaling.isWaitRunning
          ((AutoScaling.start group_names instance_ids start_ok).get ⟨i, hi⟩) = true →
        AutoScaling.isResume
          ((AutoScaling.start group_names instance_ids start_ok).get ⟨j, hj⟩) = true →
        i < j) := by
  refine ⟨?_, ?_, ?_, ?_⟩
  · intro i j hi hj hpi hqj
    refine before_split AutoScaling.isSuspend AutoScaling.isStopInstance _
      (group_names.map .suspend) (instance_ids.map .stopInstance) rfl
      ?_ ?_ hi hj hpi hqj
    · intro e he
      obtain ⟨x, _, rfl⟩ := List.mem_map.1 he
      rfl
    · intro e he
      obtain ⟨x, _, rfl⟩ := List.mem_map.1 he
      rfl
  · intro i j hi hj hpi hqj
    refine before_split AutoScaling.isStartInstance AutoScaling.isWaitRunning
      (AutoScaling.start group_names instance_ids start_ok)
      (instance_ids.map .startInstance)
      ((if (instance_ids.filter start_ok).isEmpty then []
        else [AutoScaling.AsgEvent.waitRunning (instance_ids.filter start_ok)])
        ++ group_names.map .resume) (by rw [AutoScaling.start, List.append_assoc])
      ?_ ?_ hi hj hpi hqj
    · intro e he
      rcases List.mem_append.1 he with hw | hr
      · rw [eq_wait_of_mem_ifwait hw]; rfl
      · obtain ⟨x, _, rfl⟩ := List.mem_map.1 hr; rfl
    · intro e he
      obtain ⟨x, _, rfl⟩ := List.mem_map.1 he
      rfl
  · intro i j hi hj hpi hqj
    refine before_split AutoScaling.isStartInstance AutoScaling.isResume
      (AutoScaling.start group_names instance_ids start_ok)
      (instance_ids.map .startInstance)
      ((if (instance_ids.filter start_ok).isEmpty then []
        else [AutoScaling.AsgEvent.waitRunning (instance_ids.filter start_ok)])
        ++ group_names.map .resume) (by rw [AutoScaling.start, List.append_assoc])
      ?_ ?_ hi hj hpi hqj
    · intro e he
      rcases List.mem_append.1 he with hw | hr
      · rw [eq_wait_of_mem_ifwait hw]; rfl
      · obtain ⟨x, _, rfl⟩ := List.mem_map.1 hr; rfl
    · intro e he
      obtain ⟨x, _, rfl⟩ := List.mem_map.1 he
      rfl
  · intro i j hi hj hpi hqj
    refine before_split AutoScaling.isWaitRunning AutoScaling.isResume _
      (instance_ids.map .startInstance
        ++ (if (instance_ids.filter start_ok).isEmpty then []
            else [AutoScaling.AsgEvent.waitRunning (instance_ids.filter start_ok)]))
      (group_names.map .resume)
      (by simp [AutoScaling.start, List.append_assoc])
      ?_ ?_ hi hj hpi hqj
    · intro e he
      obtain ⟨x, _, rfl⟩ := List.mem_map.1 he
      rfl
    · intro e he
      rcases List.mem_append.1 he with hs | hw
      · obtain ⟨x, _, rfl⟩ := List.mem_map.1 hs; rfl
      · rw [eq_wait_of_mem_ifwait hw]; rfl

/-- C6 witness: with one group and one instance, the suspend call (index
0) precedes the stop-instance call (index 1) in the stop trace, and the
wait phase (index 1) precedes the resume call (index 2) in the start
trace. -/
theorem c6_asg_ordering_witness : (0 : Nat) < 1 ∧ (1 : Nat) < 2 :=
  ⟨(c6_asg_ordering ["g1"] ["i1"] (fun _ => true)).1 0 1
      (by decide) (by decide) (by decide) (by decide),
   (c6_asg_ordering ["g1"] ["i1"] (fun _ => true)).2.2.2 1 2
      (by decide) (by decide) (by decide) (by decide)⟩

/-- C1: per-resource failure isolation.  For the EC2 and Redshift
stop/start operations, whatever the outcome of each per-resource call
(the oracles range over all possible failure patterns), every
discovered resource is attempted exactly once — the list of attempted
per-resource processings has the length of the discovered ARN list —
and the operation returns success, individual failures being recorded
in the processing list (logged) rather than propagated. -/
theorem c1_failure_isolation
    (asg_lookup : String → Except String (List String))
    (call_result : Ec2.Ec2Call → Except String Unit)
    (pause_result resume_result : String → Except String Unit)
    (arns : List String) :
    ((Ec2.stop asg_lookup call_result arns).1.length = arns.length
      ∧ (Ec2.stop asg_lookup call_result arns).2 = true)
    ∧ ((Ec2.start asg_lookup call_result arns).1.length = arns.length
      ∧ (Ec2.start asg_lookup call_result arns).2 = true)
    ∧ ((Redshift.stop pause_result arns).1.length = arns.length
      ∧ (Redshift.stop pause_result arns).2 = true)
    ∧ ((Redshift.start resume_result arns).1.length = arns.length
      ∧ (Redshift.start resume_result arns).2 = true) := by
  refine ⟨⟨?_, rfl⟩, ⟨?_, rfl⟩, ⟨?_, rfl⟩, ⟨?_, rfl⟩⟩ <;>
    simp [Ec2.stop, Ec2.start, Redshift.stop, Redshift.start]

/-- C7: the EC2 per-instance processing issues the state-change call if
and only if the Auto Scaling membership lookup reports no owning group.
A non-empty membership list makes the processing return success with no
state-change call; an empty one makes it issue exactly the one call for
the requested action. -/
theorem c7_asg_membership_gate
    (asg_lookup : String → Except String (List String))
    (call_result : Ec2.Ec2Call → Except String Unit)
    (instance_id : String) (action : Ec2.Action) (members : List String)
    (h : asg_lookup instance_id = .ok members) :
    (members ≠ [] →
      Ec2.process_instance asg_lookup call_result instance_id action
        = (.ok (), []))
    ∧ (members = [] →
      (Ec2.process_instance asg_lookup call_result instance_id action).2
        = [match action with
           | .stop => Ec2.Ec2Call.stopCall instance_id
           | .start => Ec2.Ec2Call.startCall instance_id]) := by
  unfold Ec2.process_instance
  rw [h]
  constructor
  · intro hm
    have hne : members.isEmpty = false := by
      cases members with
      | nil => exact absurd rfl hm
      | cons a l => rfl
    simp [hne]
  · intro hm
    subst hm
    cases action <;> rfl

/-- C7 witness: the fixture of the spec — instance i1 owned by group
G1 is skipped with success and no call; independent instance i3 gets
exactly one stop call. -/
theorem c7_asg_membership_gate_witness :
    Ec2.process_instance
        (fun instance_id => if instance_id = "i1"
          then Except.ok ["G1"] else Except.ok [])
        (fun _ => Except.ok ()) "i1" Ec2.Action.stop = (.ok (), [])
    ∧ (Ec2.process_instance
        (fun instance_id => if instance_id = "i1"
          then Except.ok ["G1"] else Except.ok [])
        (fun _ => Except.ok ()) "i3" Ec2.Action.stop).2
        = [Ec2.Ec2Call.stopCall "i3"] :=
  ⟨(c7_asg_membership_gate _ _ "i1" .stop ["G1"] (by simp)).1 (by simp),
   (c7_asg_membership_gate _ _ "i3" .stop [] (by simp)).2 rfl⟩

theorem is_date_excluded_iff (excluded_dates : List String) (today : String) :
    Main.is_date_excluded excluded_dates today = true ↔ today ∈ excluded_dates := by
  simp [Main.is_date_excluded, List.any_eq_true]

/-- C9: the date exclusion gate.  When the current UTC date in MM-DD
form equals any entry of the configured exclusion list, the whole run
performs zero facade invocations (hence zero cloud API calls) and
returns success; when no entry matches, the run proceeds to the
region-by-region, family-by-family processing. -/
theorem c9_date_exclusion_gate (config : Main.AppConfig) (today : String) :
    (today ∈ config.excluded_dates →
      Main.execute config today = ([], true))
    ∧ (today ∉ config.excluded_dates →
      Main.execute config today
        = (config.aws_regions.flatMap (Main.region_invocations config), true)) := by
  constructor
  · intro h
    unfold Main.execute
    rw [if_pos ((is_date_excluded_iff _ _).2 h)]
  · intro h
    unfold Main.execute
    rw [if_neg]
    intro hc
    exact h ((is_date_excluded_iff _ _).1 hc)

/-- C9 witness: with excludedDates containing 07-04 and a simulated
July 4th, the run performs zero invocations and reports success. -/
theorem c9_date_exclusion_gate_witness :
    Main.execute july4Config "07-04" = ([], true) :=
  (c9_date_exclusion_gate july4Config "07-04").1 (by decide)

/-- C10: the DocumentDB scheduler discovers clusters with the same
resource-type string the RDS scheduler uses for cluster discovery, and
both extract the same identifier from a cluster ARN; consequently, in a
stop run with both families enabled, every cluster identifier receives
twice as many cluster-stop actions as its multiplicity in the tagging
response for that type (once per scheduler per discovered ARN). -/
theorem c10_docdb_rds_double_action :
    DocumentDb.resource_type = Rds.cluster_resource_type
    ∧ (∀ arn, DocumentDb.extract_cluster_id arn = Rds.extract_rds_id arn)
    ∧ ∀ (tagging : String → List String) (cluster_id : String),
        (DocumentDb.stop tagging ++ Rds.stop tagging).countP
            (targetsCluster cluster_id)
          = 2 * (tagging Rds.cluster_resource_type).countP
                (fun arn => Rds.extract_rds_id arn == cluster_id) := by
  refine ⟨rfl, fun arn => rfl, ?_⟩
  intro tagging cluster_id
  simp only [DocumentDb.stop, Rds.stop, List.countP_append, List.countP_map]
  have h1 : (targetsCluster cluster_id ∘
      fun arn => DbEvent.docdbStopCluster (DocumentDb.extract_cluster_id arn))
      = fun arn => Rds.extract_rds_id arn == cluster_id := by
    funext arn
    rfl
  have h2 : (targetsCluster cluster_id ∘
      fun arn => DbEvent.rdsStopCluster (Rds.extract_rds_id arn))
      = fun arn => Rds.extract_rds_id arn == cluster_id := by
    funext arn
    rfl
  have h3 : (targetsCluster cluster_id ∘
      fun arn => DbEvent.rdsStopInstance (Rds.extract_rds_id arn))
      = fun _ => false := by
    funext arn
    rfl
  rw [h1, h2, h3]
  have h4 : DocumentDb.resource_type = Rds.cluster_resource_type := rfl
  rw [h4]
  have h5 : (tagging Rds.db_resource_type).countP (fun _ => false) = 0 := by
    simp [List.countP_eq_zero]
  rw [h5]
  omega
